import Mathlib

/-!
Verification of the six-vertex MCMC simulator (main.c) against its
natural-language specification.  The lattice is the global
`mstruct matrix[MAXROWS][MAXCOLS]`, modelled as a total function from
integer coordinates to cells; all guarded accesses of the program stay
inside `[0, nrows) x [0, ncols)`.  Weights (C doubles) are modelled as
rationals.  Direction flags follow the source: `HIGH = 1` is an UP flip,
`LOW = 0` a DOWN flip, modelled as `true` / `false`.
-/

namespace SixVertex

/-- One cell of the lattice: `struct mstruct { int type; int height; }`. -/
structure Cell where
  type : Int
  height : Int
deriving DecidableEq, Repr

/-- The lattice: integer-indexed total function (the global C array,
restricted in use to in-range indices). -/
abbrev Mat := Int → Int → Cell

/-- Write the type field of cell `(i, j)` (a single C assignment
`matrix[i][j].type = t`). -/
def setTypeAt (m : Mat) (i j t : Int) : Mat :=
  fun a b => if a = i ∧ b = j then { m a b with type := t } else m a b

/-- Write the height field of cell `(i, j)` (`matrix[i][j].height = h`). -/
def setHeightAt (m : Mat) (i j h : Int) : Mat :=
  fun a b => if a = i ∧ b = j then { m a b with height := h } else m a b

/-- One guarded relabelling statement of the source:
`if (matrix[i][j].type == pre) matrix[i][j].type = post;`. -/
def updType (m : Mat) (i j pre post : Int) : Mat :=
  if (m i j).type = pre then setTypeAt m i j post else m

/-- `updatepositions` (main.c:1905): rewrite the four cells taking part in a
flip at `(rpos, cpos)`, direction `t` (`true` = HIGH/UP).  The eight guarded
assignments are performed in source order. -/
def updatepositions (m : Mat) (rpos cpos : Int) (t : Bool) : Mat :=
  if t then
    let m1 := updType m rpos cpos 0 4
    let m2 := updType m1 rpos cpos 5 1
    let m3 := updType m2 (rpos - 1) (cpos + 1) 1 4
    let m4 := updType m3 (rpos - 1) (cpos + 1) 5 0
    let m5 := updType m4 rpos (cpos + 1) 3 5
    let m6 := updType m5 rpos (cpos + 1) 4 2
    let m7 := updType m6 (rpos - 1) cpos 2 5
    updType m7 (rpos - 1) cpos 4 3
  else
    let m1 := updType m rpos cpos 4 1
    let m2 := updType m1 rpos cpos 0 5
    let m3 := updType m2 (rpos + 1) (cpos - 1) 4 0
    let m4 := updType m3 (rpos + 1) (cpos - 1) 1 5
    let m5 := updType m4 rpos (cpos - 1) 5 2
    let m6 := updType m5 rpos (cpos - 1) 3 4
    let m7 := updType m6 (rpos + 1) cpos 5 3
    updType m7 (rpos + 1) cpos 2 4

/-- `getisflippable` (main.c:1781), compiled with `STICKY = 0`:
returns 1 when a flip of direction `t` is admissible at `(rpos, cpos)`,
0 otherwise; out-of-range coordinates return 0 at the initial guards. -/
def getisflippable (m : Mat) (nrows ncols rpos cpos : Int) (t : Bool) : Int :=
  if rpos < 0 ∨ rpos ≥ nrows then 0
  else if cpos < 0 ∨ cpos ≥ ncols then 0
  else if t then
    if rpos > 0 ∧ cpos < ncols - 1 then
      if (m rpos cpos).type = 0 ∨ (m rpos cpos).type = 5 then
        if (m (rpos - 1) (cpos + 1)).type = 1 ∨ (m (rpos - 1) (cpos + 1)).type = 5 then 1
        else 0
      else 0
    else 0
  else
    if rpos < nrows - 1 ∧ cpos > 0 then
      if (m rpos cpos).type = 0 ∨ (m rpos cpos).type = 4 then
        if (m (rpos + 1) (cpos - 1)).type = 1 ∨ (m (rpos + 1) (cpos - 1)).type = 4 then 1
        else 0
      else 0
    else 0

/-- Add `d` to the stored height of cell `(i, j)` (`height--` / `height++`). -/
def addHeightAt (m : Mat) (i j d : Int) : Mat :=
  fun a b => if a = i ∧ b = j then { m a b with height := (m a b).height + d } else m a b

/-- `executeflip` (main.c:1867): perform `updatepositions`, then adjust the
anchor height and the volume counter (`matrixvol`).  Returns the new matrix
and the new volume counter. -/
def executeflip (m : Mat) (vol rpos cpos : Int) (t : Bool) : Mat × Int :=
  let m1 := updatepositions m rpos cpos t
  if t then (addHeightAt m1 rpos cpos (-1), vol - 1)
  else (addHeightAt m1 (rpos + 1) (cpos - 1) 1, vol + 1)

/-- `getweightratio` (main.c:1639): read the four pre-move types, relabel
them exactly as `updatepositions` would, and return the product of the four
post-move weights divided by `rho`.  `wts` is the weight table indexed by
vertex type. -/
def getweightratio (m : Mat) (wts : Int → ℚ) (rho : ℚ) (rpos cpos : Int) (t : Bool) : ℚ :=
  let tv : Int := if t then 1 else 0
  let xshift := (m rpos (cpos - 1 + 2 * tv)).type
  let yshift := (m (rpos + 1 - 2 * tv) cpos).type
  let dshift := (m (rpos + 1 - 2 * tv) (cpos - 1 + 2 * tv)).type
  let base := (m rpos cpos).type
  if t then
    let base1 := if base = 0 then 4 else base
    let base2 := if base1 = 5 then 1 else base1
    let dshift1 := if dshift = 1 then 4 else dshift
    let dshift2 := if dshift1 = 5 then 0 else dshift1
    let xshift1 := if xshift = 3 then 5 else xshift
    let xshift2 := if xshift1 = 4 then 2 else xshift1
    let yshift1 := if yshift = 2 then 5 else yshift
    let yshift2 := if yshift1 = 4 then 3 else yshift1
    wts base2 * wts xshift2 * wts yshift2 * wts dshift2 / rho
  else
    let base1 := if base = 4 then 1 else base
    let base2 := if base1 = 0 then 5 else base1
    let dshift1 := if dshift = 4 then 0 else dshift
    let dshift2 := if dshift1 = 1 then 5 else dshift1
    let xshift1 := if xshift = 5 then 2 else xshift
    let xshift2 := if xshift1 = 3 then 4 else xshift1
    let yshift1 := if yshift = 5 then 3 else yshift
    let yshift2 := if yshift1 = 2 then 4 else yshift1
    wts base2 * wts xshift2 * wts yshift2 * wts dshift2 / rho

/-- The candidate values scanned by `definerho` (main.c:2208), in source
order: 8 DOWN single-move products, 8 UP single-move products, then the
64 bi-flip sums (each DOWN-family product plus each UP-family product). -/
def rhoEntries (w : Int → ℚ) : List ℚ :=
  [ w 1 * w 4 * w 5 * w 4, w 1 * w 4 * w 5 * w 3,
    w 1 * w 4 * w 0 * w 4, w 1 * w 4 * w 0 * w 3,
    w 1 * w 2 * w 5 * w 4, w 1 * w 2 * w 5 * w 3,
    w 1 * w 2 * w 0 * w 4, w 1 * w 2 * w 0 * w 3,
    w 1 * w 3 * w 4 * w 5, w 1 * w 3 * w 4 * w 2,
    w 1 * w 3 * w 0 * w 5, w 1 * w 3 * w 0 * w 2,
    w 1 * w 5 * w 4 * w 5, w 1 * w 5 * w 4 * w 2,
    w 1 * w 5 * w 0 * w 5, w 1 * w 5 * w 0 * w 2,
    w 5 * w 4 * w 5 * w 4 + w 4 * w 3 * w 4 * w 5,
    w 5 * w 4 * w 5 * w 4 + w 4 * w 3 * w 4 * w 2,
    w 5 * w 4 * w 5 * w 4 + w 4 * w 3 * w 0 * w 5,
    w 5 * w 4 * w 5 * w 4 + w 4 * w 3 * w 0 * w 2,
    w 5 * w 4 * w 5 * w 4 + w 4 * w 5 * w 4 * w 5,
    w 5 * w 4 * w 5 * w 4 + w 4 * w 5 * w 4 * w 2,
    w 5 * w 4 * w 5 * w 4 + w 4 * w 5 * w 1 * w 5,
    w 5 * w 4 * w 5 * w 4 + w 4 * w 5 * w 1 * w 2,
    w 5 * w 4 * w 5 * w 3 + w 4 * w 3 * w 4 * w 5,
    w 5 * w 4 * w 5 * w 3 + w 4 * w 3 * w 4 * w 2,
    w 5 * w 4 * w 5 * w 3 + w 4 * w 3 * w 0 * w 5,
    w 5 * w 4 * w 5 * w 3 + w 4 * w 3 * w 0 * w 2,
    w 5 * w 4 * w 5 * w 3 + w 4 * w 5 * w 4 * w 5,
    w 5 * w 4 * w 5 * w 3 + w 4 * w 5 * w 4 * w 2,
    w 5 * w 4 * w 5 * w 3 + w 4 * w 5 * w 1 * w 5,
    w 5 * w 4 * w 5 * w 3 + w 4 * w 5 * w 1 * w 2,
    w 5 * w 4 * w 0 * w 4 + w 4 * w 3 * w 4 * w 5,
    w 5 * w 4 * w 0 * w 4 + w 4 * w 3 * w 4 * w 2,
    w 5 * w 4 * w 0 * w 4 + w 4 * w 3 * w 0 * w 5,
    w 5 * w 4 * w 0 * w 4 + w 4 * w 3 * w 0 * w 2,
    w 5 * w 4 * w 0 * w 4 + w 4 * w 5 * w 4 * w 5,
    w 5 * w 4 * w 0 * w 4 + w 4 * w 5 * w 4 * w 2,
    w 5 * w 4 * w 0 * w 4 + w 4 * w 5 * w 1 * w 5,
    w 5 * w 4 * w 0 * w 4 + w 4 * w 5 * w 1 * w 2,
    w 5 * w 4 * w 0 * w 3 + w 4 * w 3 * w 4 * w 5,
    w 5 * w 4 * w 0 * w 3 + w 4 * w 3 * w 4 * w 2,
    w 5 * w 4 * w 0 * w 3 + w 4 * w 3 * w 0 * w 5,
    w 5 * w 4 * w 0 * w 3 + w 4 * w 3 * w 0 * w 2,
    w 5 * w 4 * w 0 * w 3 + w 4 * w 5 * w 4 * w 5,
    w 5 * w 4 * w 0 * w 3 + w 4 * w 5 * w 4 * w 2,
    w 5 * w 4 * w 0 * w 3 + w 4 * w 5 * w 1 * w 5,
    w 5 * w 4 * w 0 * w 3 + w 4 * w 5 * w 1 * w 2,
    w 5 * w 2 * w 5 * w 4 + w 4 * w 3 * w 4 * w 5,
    w 5 * w 2 * w 5 * w 4 + w 4 * w 3 * w 4 * w 2,
    w 5 * w 2 * w 5 * w 4 + w 4 * w 3 * w 0 * w 5,
    w 5 * w 2 * w 5 * w 4 + w 4 * w 3 * w 0 * w 2,
    w 5 * w 2 * w 5 * w 4 + w 4 * w 5 * w 4 * w 5,
    w 5 * w 2 * w 5 * w 4 + w 4 * w 5 * w 4 * w 2,
    w 5 * w 2 * w 5 * w 4 + w 4 * w 5 * w 1 * w 5,
    w 5 * w 2 * w 5 * w 4 + w 4 * w 5 * w 1 * w 2,
    w 5 * w 2 * w 5 * w 3 + w 4 * w 3 * w 4 * w 5,
    w 5 * w 2 * w 5 * w 3 + w 4 * w 3 * w 4 * w 2,
    w 5 * w 2 * w 5 * w 3 + w 4 * w 3 * w 0 * w 5,
    w 5 * w 2 * w 5 * w 3 + w 4 * w 3 * w 0 * w 2,
    w 5 * w 2 * w 5 * w 3 + w 4 * w 5 * w 4 * w 5,
    w 5 * w 2 * w 5 * w 3 + w 4 * w 5 * w 4 * w 2,
    w 5 * w 2 * w 5 * w 3 + w 4 * w 5 * w 1 * w 5,
    w 5 * w 2 * w 5 * w 3 + w 4 * w 5 * w 1 * w 2,
    w 5 * w 2 * w 0 * w 4 + w 4 * w 3 * w 4 * w 5,
    w 5 * w 2 * w 0 * w 4 + w 4 * w 3 * w 4 * w 2,
    w 5 * w 2 * w 0 * w 4 + w 4 * w 3 * w 0 * w 5,
    w 5 * w 2 * w 0 * w 4 + w 4 * w 3 * w 0 * w 2,
    w 5 * w 2 * w 0 * w 4 + w 4 * w 5 * w 4 * w 5,
    w 5 * w 2 * w 0 * w 4 + w 4 * w 5 * w 4 * w 2,
    w 5 * w 2 * w 0 * w 4 + w 4 * w 5 * w 1 * w 5,
    w 5 * w 2 * w 0 * w 4 + w 4 * w 5 * w 1 * w 2,
    w 5 * w 2 * w 0 * w 3 + w 4 * w 3 * w 4 * w 5,
    w 5 * w 2 * w 0 * w 3 + w 4 * w 3 * w 4 * w 2,
    w 5 * w 2 * w 0 * w 3 + w 4 * w 3 * w 0 * w 5,
    w 5 * w 2 * w 0 * w 3 + w 4 * w 3 * w 0 * w 2,
    w 5 * w 2 * w 0 * w 3 + w 4 * w 5 * w 4 * w 5,
    w 5 * w 2 * w 0 * w 3 + w 4 * w 5 * w 4 * w 2,
    w 5 * w 2 * w 0 * w 3 + w 4 * w 5 * w 1 * w 5,
    w 5 * w 2 * w 0 * w 3 + w 4 * w 5 * w 1 * w 2 ]

/-- `definerho` (main.c:2208): starting from the global `rho = 0`, each
source line `if (rho < e) rho = e;` replaces `rho` by `max rho e`, so the
function computes the running maximum of `rhoEntries` over the initial 0. -/
def definerho (w : Int → ℚ) : ℚ :=
  (rhoEntries w).foldl max 0

/-- The driver state touched by one bi-flip branch of the main loop:
the matrix, its volume counter and the two global flip counters. -/
structure SimState where
  mat : Mat
  vol : Int
  flipcompleted : Int
  flipfailed : Int

/-- The bi-flip branch of the main loop (main.c:606): both directions are
admissible, one uniform draw `u` selects HIGH, LOW or failure. -/
def biflipcase (s : SimState) (wts : Int → ℚ) (rho : ℚ) (r c : Int) (u : ℚ) : SimState :=
  let flipchance := getweightratio s.mat wts rho r c true
  let flipchance2 := getweightratio s.mat wts rho r c false
  if flipchance ≥ u then
    let p := executeflip s.mat s.vol r c true
    { mat := p.1, vol := p.2, flipcompleted := s.flipcompleted + 1, flipfailed := s.flipfailed }
  else if flipchance + flipchance2 ≥ u then
    let p := executeflip s.mat s.vol r c false
    { mat := p.1, vol := p.2, flipcompleted := s.flipcompleted + 1, flipfailed := s.flipfailed }
  else
    { s with flipfailed := s.flipfailed + 1 }

/-- `fgetc` on a byte stream: the byte at `pos`, or -1 (EOF) past the end. -/
def fgetcSim (s : List Int) (pos : Nat) : Int :=
  if h : pos < s.length then s.get ⟨pos, h⟩ else -1

/-- `parse` (main.c:1551): the double loop stores
`matrix[i][j].type = fgetc(data) - '0'` row-major, so cell `(i, j)` receives
the byte at stream position `i * C + j` minus 48.  Heights are untouched. -/
def parse (s : List Int) (R C : Nat) (m : Mat) : Mat :=
  fun i j =>
    if 0 ≤ i ∧ i < (R : Int) ∧ 0 ≤ j ∧ j < (C : Int) then
      { m i j with type := fgetcSim s (i.toNat * C + j.toNat) - 48 }
    else m i j

/-- The input-open prologue of `main` (main.c:282): `fopen` failure on either
file prints an error and executes `return 0`; `none` means both files opened
and the program proceeds (the sampling loop `while(1)` never returns). -/
def inputOpenExit (ok1 ok2 : Bool) : Option Int :=
  if ok1 = false then some 0
  else if ok2 = false then some 0
  else none

/-- Indicator used by `setheights` and `print_volume`: 1 when the type is
0, 2 or 5 (the types that raise the running row height), else 0. -/
def hind (t : Int) : Int :=
  if t = 0 ∨ t = 2 ∨ t = 5 then 1 else 0

/-- Running count of height-raising types among the first `n` columns of
row `i` (the value of `current` in `setheights` after `n` loop steps). -/
def cnt (m : Mat) (i : Int) : Nat → Int
  | 0 => 0
  | n + 1 => cnt m i n + hind (m i (n : Int)).type

/-- Inner loop of `print_volume` (main.c:1331) over the first `n` columns of
row `i`: returns the pair `(current, total so far in this row)`; note the
source adds `current` to `total` on every column iteration. -/
def print_volume_row (m : Mat) (i : Int) : Nat → Int × Int
  | 0 => (0, 0)
  | n + 1 =>
    let p := print_volume_row m i n
    let cur := if (m i (n : Int)).type = 0 ∨ (m i (n : Int)).type = 2 ∨ (m i (n : Int)).type = 5
      then p.1 + 1 else p.1
    (cur, p.2 + cur)

/-- Outer loop of `print_volume`: the emitted `total` accumulated over the
first `k` rows (each row restarts `current` at 0). -/
def print_volume_rows (m : Mat) (C : Nat) : Nat → Int
  | 0 => 0
  | k + 1 => print_volume_rows m C k + (print_volume_row m (k : Int) C).2

/-- The integer printed by `print_volume` for an `R x C` lattice. -/
def print_volume_total (m : Mat) (R C : Nat) : Int :=
  print_volume_rows m C R

/-- Inner loop of `setheights` (main.c:1580) over the first `n` columns of
row `i`: writes each running count into the cell height and accumulates the
row total; returns `(matrix, current, total)`. -/
def setheights_row (m : Mat) (i : Int) : Nat → Mat × Int × Int
  | 0 => (m, 0, 0)
  | n + 1 =>
    let p := setheights_row m i n
    let cur := if (p.1 i (n : Int)).type = 0 ∨ (p.1 i (n : Int)).type = 2 ∨
        (p.1 i (n : Int)).type = 5
      then p.2.1 + 1 else p.2.1
    (setHeightAt p.1 i (n : Int) cur, cur, p.2.2 + cur)

/-- Outer loop of `setheights` over the first `k` rows. -/
def setheights_rows (m : Mat) (C : Nat) : Nat → Mat × Int
  | 0 => (m, 0)
  | k + 1 =>
    let p := setheights_rows m C k
    let q := setheights_row p.1 (k : Int) C
    (q.1, p.2 + q.2.2)

/-- `setheights` (main.c:1580) on an `R x C` lattice: the rewritten matrix
and the returned total (assigned to `matrixvol`). -/
def setheights (m : Mat) (R C : Nat) : Mat × Int :=
  setheights_rows m C R

/-- Sum of the first `n` stored heights of row `i`. -/
def heightsRow (m : Mat) (i : Int) : Nat → Int
  | 0 => 0
  | n + 1 => heightsRow m i n + (m i (n : Int)).height

/-- Sum of all stored heights of the first `k` rows (`C` columns each). -/
def heightsTotal (m : Mat) (C : Nat) : Nat → Int
  | 0 => 0
  | k + 1 => heightsTotal m C k + heightsRow m (k : Int) C

/-- Sum over the first `n` columns of row `i` of the running counts
`cnt m i (j+1)` (the row contribution that `print_volume` actually emits). -/
def cntRowSum (m : Mat) (i : Int) : Nat → Int
  | 0 => 0
  | n + 1 => cntRowSum m i n + cnt m i (n + 1)

/-- Sum of `cntRowSum` over the first `k` rows. -/
def cntTotal (m : Mat) (C : Nat) : Nat → Int
  | 0 => 0
  | k + 1 => cntTotal m C k + cntRowSum m (k : Int) C

/-- Plain indicator sum over the `R x C` lattice: number of cells whose type
is 0, 2 or 5 (second summand first to keep row-major reading order). -/
def indRowSum (m : Mat) (i : Int) : Nat → Int
  | 0 => 0
  | n + 1 => indRowSum m i n + hind (m i (n : Int)).type

/-- Indicator sum over the first `k` rows. -/
def indTotal (m : Mat) (C : Nat) : Nat → Int
  | 0 => 0
  | k + 1 => indTotal m C k + indRowSum m (k : Int) C

/-! ### Basic lemmas about the cell-update primitives -/

lemma updType_ne (m : Mat) (i j p q a b : Int) (h : ¬(a = i ∧ b = j)) :
    updType m i j p q a b = m a b := by
  unfold updType setTypeAt
  split
  · simp [h]
  · rfl

lemma updType_type_self (m : Mat) (i j p q : Int) :
    ((updType m i j p q) i j).type = if (m i j).type = p then q else (m i j).type := by
  unfold updType setTypeAt
  split <;> simp_all

lemma updType_height (m : Mat) (i j p q a b : Int) :
    ((updType m i j p q) a b).height = (m a b).height := by
  unfold updType setTypeAt
  split
  · by_cases h : a = i ∧ b = j <;> simp [h]
  · rfl

lemma updatepositions_true_eq (m : Mat) (r c : Int) :
    updatepositions m r c true =
      updType (updType (updType (updType (updType (updType (updType
        (updType m r c 0 4) r c 5 1)
        (r - 1) (c + 1) 1 4) (r - 1) (c + 1) 5 0)
        r (c + 1) 3 5) r (c + 1) 4 2)
        (r - 1) c 2 5) (r - 1) c 4 3 := rfl

lemma updatepositions_false_eq (m : Mat) (r c : Int) :
    updatepositions m r c false =
      updType (updType (updType (updType (updType (updType (updType
        (updType m r c 4 1) r c 0 5)
        (r + 1) (c - 1) 4 0) (r + 1) (c - 1) 1 5)
        r (c - 1) 5 2) r (c - 1) 3 4)
        (r + 1) c 5 3) (r + 1) c 2 4 := rfl

/-- UP flip, base cell: net relabelling 0 to 4 and 5 to 1. -/
lemma upd_up_base (m : Mat) (r c : Int) :
    ((updatepositions m r c true) r c).type =
      if (m r c).type = 0 then 4 else if (m r c).type = 5 then 1 else (m r c).type := by
  have h1 : ¬(r = r - 1 ∧ c = c) := fun hh => by omega
  have h2 : ¬(r = r ∧ c = c + 1) := fun hh => by omega
  have h3 : ¬(r = r - 1 ∧ c = c + 1) := fun hh => by omega
  rw [updatepositions_true_eq,
    updType_ne _ _ _ _ _ _ _ h1, updType_ne _ _ _ _ _ _ _ h1,
    updType_ne _ _ _ _ _ _ _ h2, updType_ne _ _ _ _ _ _ _ h2,
    updType_ne _ _ _ _ _ _ _ h3, updType_ne _ _ _ _ _ _ _ h3,
    updType_type_self, updType_type_self]
  split_ifs <;> omega

/-- UP flip, upper-right cell: net relabelling 1 to 4 and 5 to 0. -/
lemma upd_up_upright (m : Mat) (r c : Int) :
    ((updatepositions m r c true) (r - 1) (c + 1)).type =
      if (m (r - 1) (c + 1)).type = 1 then 4
      else if (m (r - 1) (c + 1)).type = 5 then 0 else (m (r - 1) (c + 1)).type := by
  have h1 : ¬(r - 1 = r - 1 ∧ c + 1 = c) := fun hh => by omega
  have h2 : ¬(r - 1 = r ∧ c + 1 = c + 1) := fun hh => by omega
  have h3 : ¬(r - 1 = r ∧ c + 1 = c) := fun hh => by omega
  rw [updatepositions_true_eq,
    updType_ne _ _ _ _ _ _ _ h1, updType_ne _ _ _ _ _ _ _ h1,
    updType_ne _ _ _ _ _ _ _ h2, updType_ne _ _ _ _ _ _ _ h2,
    updType_type_self, updType_type_self,
    updType_ne _ _ _ _ _ _ _ h3, updType_ne _ _ _ _ _ _ _ h3]
  split_ifs <;> omega

/-- UP flip, right cell: net relabelling 3 to 5 and 4 to 2. -/
lemma upd_up_right (m : Mat) (r c : Int) :
    ((updatepositions m r c true) r (c + 1)).type =
      if (m r (c + 1)).type = 3 then 5
      else if (m r (c + 1)).type = 4 then 2 else (m r (c + 1)).type := by
  have h1 : ¬(r = r - 1 ∧ c + 1 = c) := fun hh => by omega
  have h2 : ¬(r = r - 1 ∧ c + 1 = c + 1) := fun hh => by omega
  have h3 : ¬(r = r ∧ c + 1 = c) := fun hh => by omega
  rw [updatepositions_true_eq,
    updType_ne _ _ _ _ _ _ _ h1, updType_ne _ _ _ _ _ _ _ h1,
    updType_type_self, updType_type_self,
    updType_ne _ _ _ _ _ _ _ h2, updType_ne _ _ _ _ _ _ _ h2,
    updType_ne _ _ _ _ _ _ _ h3, updType_ne _ _ _ _ _ _ _ h3]
  split_ifs <;> omega

/-- UP flip, up cell: net relabelling 2 to 5 and 4 to 3. -/
lemma upd_up_up (m : Mat) (r c : Int) :
    ((updatepositions m r c true) (r - 1) c).type =
      if (m (r - 1) c).type = 2 then 5
      else if (m (r - 1) c).type = 4 then 3 else (m (r - 1) c).type := by
  have h2 : ¬(r - 1 = r ∧ c = c + 1) := fun hh => by omega
  have h3 : ¬(r - 1 = r - 1 ∧ c = c + 1) := fun hh => by omega
  have h4 : ¬(r - 1 = r ∧ c = c) := fun hh => by omega
  rw [updatepositions_true_eq,
    updType_type_self, updType_type_self,
    updType_ne _ _ _ _ _ _ _ h2, updType_ne _ _ _ _ _ _ _ h2,
    updType_ne _ _ _ _ _ _ _ h3, updType_ne _ _ _ _ _ _ _ h3,
    updType_ne _ _ _ _ _ _ _ h4, updType_ne _ _ _ _ _ _ _ h4]
  split_ifs <;> omega

/-- DOWN flip, base cell: net relabelling 4 to 1 and 0 to 5. -/
lemma upd_down_base (m : Mat) (r c : Int) :
    ((updatepositions m r c false) r c).type =
      if (m r c).type = 4 then 1 else if (m r c).type = 0 then 5 else (m r c).type := by
  have h1 : ¬(r = r + 1 ∧ c = c) := fun hh => by omega
  have h2 : ¬(r = r ∧ c = c - 1) := fun hh => by omega
  have h3 : ¬(r = r + 1 ∧ c = c - 1) := fun hh => by omega
  rw [updatepositions_false_eq,
    updType_ne _ _ _ _ _ _ _ h1, updType_ne _ _ _ _ _ _ _ h1,
    updType_ne _ _ _ _ _ _ _ h2, updType_ne _ _ _ _ _ _ _ h2,
    updType_ne _ _ _ _ _ _ _ h3, updType_ne _ _ _ _ _ _ _ h3,
    updType_type_self, updType_type_self]
  split_ifs <;> omega

/-- DOWN flip, lower-left cell: net relabelling 4 to 0 and 1 to 5. -/
lemma upd_down_lowleft (m : Mat) (r c : Int) :
    ((updatepositions m r c false) (r + 1) (c - 1)).type =
      if (m (r + 1) (c - 1)).type = 4 then 0
      else if (m (r + 1) (c - 1)).type = 1 then 5 else (m (r + 1) (c - 1)).type := by
  have h1 : ¬(r + 1 = r + 1 ∧ c - 1 = c) := fun hh => by omega
  have h2 : ¬(r + 1 = r ∧ c - 1 = c - 1) := fun hh => by omega
  have h3 : ¬(r + 1 = r ∧ c - 1 = c) := fun hh => by omega
  rw [updatepositions_false_eq,
    updType_ne _ _ _ _ _ _ _ h1, updType_ne _ _ _ _ _ _ _ h1,
    updType_ne _ _ _ _ _ _ _ h2, updType_ne _ _ _ _ _ _ _ h2,
    updType_type_self, updType_type_self,
    updType_ne _ _ _ _ _ _ _ h3, updType_ne _ _ _ _ _ _ _ h3]
  split_ifs <;> omega

/-- DOWN flip, left cell: net relabelling 5 to 2 and 3 to 4. -/
lemma upd_down_left (m : Mat) (r c : Int) :
    ((updatepositions m r c false) r (c - 1)).type =
      if (m r (c - 1)).type = 5 then 2
      else if (m r (c - 1)).type = 3 then 4 else (m r (c - 1)).type := by
  have h1 : ¬(r = r + 1 ∧ c - 1 = c) := fun hh => by omega
  have h2 : ¬(r = r + 1 ∧ c - 1 = c - 1) := fun hh => by omega
  have h3 : ¬(r = r ∧ c - 1 = c) := fun hh => by omega
  rw [updatepositions_false_eq,
    updType_ne _ _ _ _ _ _ _ h1, updType_ne _ _ _ _ _ _ _ h1,
    updType_type_self, updType_type_self,
    updType_ne _ _ _ _ _ _ _ h2, updType_ne _ _ _ _ _ _ _ h2,
    updType_ne _ _ _ _ _ _ _ h3, updType_ne _ _ _ _ _ _ _ h3]
  split_ifs <;> omega

/-- DOWN flip, down cell: net relabelling 5 to 3 and 2 to 4. -/
lemma upd_down_down (m : Mat) (r c : Int) :
    ((updatepositions m r c false) (r + 1) c).type =
      if (m (r + 1) c).type = 5 then 3
      else if (m (r + 1) c).type = 2 then 4 else (m (r + 1) c).type := by
  have h2 : ¬(r + 1 = r ∧ c = c - 1) := fun hh => by omega
  have h3 : ¬(r + 1 = r + 1 ∧ c = c - 1) := fun hh => by omega
  have h4 : ¬(r + 1 = r ∧ c = c) := fun hh => by omega
  rw [updatepositions_false_eq,
    updType_type_self, updType_type_self,
    updType_ne _ _ _ _ _ _ _ h2, updType_ne _ _ _ _ _ _ _ h2,
    updType_ne _ _ _ _ _ _ _ h3, updType_ne _ _ _ _ _ _ _ h3,
    updType_ne _ _ _ _ _ _ _ h4, updType_ne _ _ _ _ _ _ _ h4]
  split_ifs <;> omega

/-- Cells outside the four participating ones are untouched by an UP flip. -/
lemma upd_up_frame (m : Mat) (r c a b : Int)
    (g1 : ¬(a = r ∧ b = c)) (g2 : ¬(a = r - 1 ∧ b = c + 1))
    (g3 : ¬(a = r ∧ b = c + 1)) (g4 : ¬(a = r - 1 ∧ b = c)) :
    (updatepositions m r c true) a b = m a b := by
  rw [updatepositions_true_eq,
    updType_ne _ _ _ _ _ _ _ g4, updType_ne _ _ _ _ _ _ _ g4,
    updType_ne _ _ _ _ _ _ _ g3, updType_ne _ _ _ _ _ _ _ g3,
    updType_ne _ _ _ _ _ _ _ g2, updType_ne _ _ _ _ _ _ _ g2,
    updType_ne _ _ _ _ _ _ _ g1, updType_ne _ _ _ _ _ _ _ g1]

/-- Cells outside the four participating ones are untouched by a DOWN flip. -/
lemma upd_down_frame (m : Mat) (r c a b : Int)
    (g1 : ¬(a = r ∧ b = c)) (g2 : ¬(a = r + 1 ∧ b = c - 1))
    (g3 : ¬(a = r ∧ b = c - 1)) (g4 : ¬(a = r + 1 ∧ b = c)) :
    (updatepositions m r c false) a b = m a b := by
  rw [updatepositions_false_eq,
    updType_ne _ _ _ _ _ _ _ g4, updType_ne _ _ _ _ _ _ _ g4,
    updType_ne _ _ _ _ _ _ _ g3, updType_ne _ _ _ _ _ _ _ g3,
    updType_ne _ _ _ _ _ _ _ g2, updType_ne _ _ _ _ _ _ _ g2,
    updType_ne _ _ _ _ _ _ _ g1, updType_ne _ _ _ _ _ _ _ g1]

/-- `updatepositions` never touches a stored height. -/
lemma upd_height (m : Mat) (r c : Int) (t : Bool) (a b : Int) :
    ((updatepositions m r c t) a b).height = (m a b).height := by
  cases t
  · rw [updatepositions_false_eq, updType_height, updType_height, updType_height,
      updType_height, updType_height, updType_height, updType_height, updType_height]
  · rw [updatepositions_true_eq, updType_height, updType_height, updType_height,
      updType_height, updType_height, updType_height, updType_height, updType_height]

lemma addHeightAt_height (m : Mat) (i j d a b : Int) :
    ((addHeightAt m i j d) a b).height =
      (m a b).height + (if a = i ∧ b = j then d else 0) := by
  unfold addHeightAt
  split <;> simp

lemma addHeightAt_type (m : Mat) (i j d a b : Int) :
    ((addHeightAt m i j d) a b).type = (m a b).type := by
  unfold addHeightAt
  split <;> rfl

/-! ### Characterising `getisflippable` -/

lemma getisflippable_up_iff (m : Mat) (R C r c : Int) :
    getisflippable m R C r c true = 1 ↔
      (0 < r ∧ r < R ∧ 0 ≤ c ∧ c < C - 1 ∧
       ((m r c).type = 0 ∨ (m r c).type = 5) ∧
       ((m (r - 1) (c + 1)).type = 1 ∨ (m (r - 1) (c + 1)).type = 5)) := by
  unfold getisflippable
  split_ifs with g1 g2 g3 g4 g5 <;> simp_all <;> omega

lemma getisflippable_down_iff (m : Mat) (R C r c : Int) :
    getisflippable m R C r c false = 1 ↔
      (0 ≤ r ∧ r < R - 1 ∧ 0 < c ∧ c < C ∧
       ((m r c).type = 0 ∨ (m r c).type = 4) ∧
       ((m (r + 1) (c - 1)).type = 1 ∨ (m (r + 1) (c - 1)).type = 4)) := by
  unfold getisflippable
  split_ifs with g1 g2 g3 g4 g5 <;> simp_all <;> omega

lemma getisflippable_out_of_range (m : Mat) (R C r c : Int) (t : Bool)
    (h : r < 0 ∨ r ≥ R ∨ c < 0 ∨ c ≥ C) :
    getisflippable m R C r c t = 0 := by
  unfold getisflippable
  split_ifs <;> first | rfl | omega

/-! ### Concrete example lattices -/

/-- A 3x3 lattice whose centre `(1,1)` admits both an UP flip (base 0,
upper-right `(0,2)` of type 1) and a DOWN flip (lower-left `(2,0)` of
type 1). -/
def mBi : Mat := fun i j =>
  if i = 0 ∧ j = 2 then ⟨1, 0⟩
  else if i = 2 ∧ j = 0 then ⟨1, 0⟩
  else ⟨0, 0⟩

/-! ### Claim theorems -/

/-- C1: for every lattice with cell types in 0..5 and every flippable
`(r, c)` with direction `d`, `updatepositions` rewrites exactly the four
participating cells by the fixed relabelling table (UP: base 0 to 4 and
5 to 1, upper-right 1 to 4 and 5 to 0, right 3 to 5 and 4 to 2, up 2 to 5
and 4 to 3; DOWN: base 4 to 1 and 0 to 5, lower-left 4 to 0 and 1 to 5,
left 5 to 2 and 3 to 4, down 5 to 3 and 2 to 4); a participating cell whose
pre-type is not in the table keeps its type, and every other cell is
untouched. -/
theorem updatepositions_relabel_table (m : Mat) (R C r c : Int) (d : Bool)
    (hty : ∀ i j : Int, 0 ≤ i → i < R → 0 ≤ j → j < C →
      0 ≤ (m i j).type ∧ (m i j).type ≤ 5)
    (hflip : getisflippable m R C r c d = 1) :
    (d = true →
      ((updatepositions m r c d) r c).type =
        (if (m r c).type = 0 then 4 else if (m r c).type = 5 then 1 else (m r c).type) ∧
      ((updatepositions m r c d) (r - 1) (c + 1)).type =
        (if (m (r - 1) (c + 1)).type = 1 then 4
         else if (m (r - 1) (c + 1)).type = 5 then 0 else (m (r - 1) (c + 1)).type) ∧
      ((updatepositions m r c d) r (c + 1)).type =
        (if (m r (c + 1)).type = 3 then 5
         else if (m r (c + 1)).type = 4 then 2 else (m r (c + 1)).type) ∧
      ((updatepositions m r c d) (r - 1) c).type =
        (if (m (r - 1) c).type = 2 then 5
         else if (m (r - 1) c).type = 4 then 3 else (m (r - 1) c).type) ∧
      (∀ a b : Int, ¬(a = r ∧ b = c) → ¬(a = r - 1 ∧ b = c + 1) →
        ¬(a = r ∧ b = c + 1) → ¬(a = r - 1 ∧ b = c) →
        (updatepositions m r c d) a b = m a b)) ∧
    (d = false →
      ((updatepositions m r c d) r c).type =
        (if (m r c).type = 4 then 1 else if (m r c).type = 0 then 5 else (m r c).type) ∧
      ((updatepositions m r c d) (r + 1) (c - 1)).type =
        (if (m (r + 1) (c - 1)).type = 4 then 0
         else if (m (r + 1) (c - 1)).type = 1 then 5 else (m (r + 1) (c - 1)).type) ∧
      ((updatepositions m r c d) r (c - 1)).type =
        (if (m r (c - 1)).type = 5 then 2
         else if (m r (c - 1)).type = 3 then 4 else (m r (c - 1)).type) ∧
      ((updatepositions m r c d) (r + 1) c).type =
        (if (m (r + 1) c).type = 5 then 3
         else if (m (r + 1) c).type = 2 then 4 else (m (r + 1) c).type) ∧
      (∀ a b : Int, ¬(a = r ∧ b = c) → ¬(a = r + 1 ∧ b = c - 1) →
        ¬(a = r ∧ b = c - 1) → ¬(a = r + 1 ∧ b = c) →
        (updatepositions m r c d) a b = m a b)) := by
  constructor
  · intro hd
    subst hd
    exact ⟨upd_up_base m r c, upd_up_upright m r c, upd_up_right m r c, upd_up_up m r c,
      fun a b g1 g2 g3 g4 => upd_up_frame m r c a b g1 g2 g3 g4⟩
  · intro hd
    subst hd
    exact ⟨upd_down_base m r c, upd_down_lowleft m r c, upd_down_left m r c, upd_down_down m r c,
      fun a b g1 g2 g3 g4 => upd_down_frame m r c a b g1 g2 g3 g4⟩

/-- Witness for C1 at a concrete flippable input: the UP flip at `(1,1)` of
`mBi` rewrites the base type 0 to 4. -/
theorem updatepositions_relabel_table_witness :
    getisflippable mBi 3 3 1 1 true = 1 ∧ ((updatepositions mBi 1 1 true) 1 1).type = 4 := by
  refine ⟨by decide, ?_⟩
  have h := ((updatepositions_relabel_table mBi 3 3 1 1 true
    (by intro i j h1 h2 h3 h4; interval_cases i <;> interval_cases j <;> decide)
    (by decide)).1 rfl).1
  rw [h]
  decide

/-- C2: for in-range `(r, c)`, `getisflippable` returns 1 for UP exactly
when `r` is positive, `c` is below the last column, the base type is 0 or 5
and the upper-right type is 1 or 5; it returns 1 for DOWN exactly when `r`
is above the last row, `c` is positive, the base type is 0 or 4 and the
lower-left type is 1 or 4; and out-of-range coordinates yield 0 for both
directions rather than an error. -/
theorem getisflippable_characterization (m : Mat) (R C r c : Int) :
    (0 ≤ r → r < R → 0 ≤ c → c < C →
      ((getisflippable m R C r c true = 1 ↔
        (0 < r ∧ c < C - 1 ∧ ((m r c).type = 0 ∨ (m r c).type = 5) ∧
         ((m (r - 1) (c + 1)).type = 1 ∨ (m (r - 1) (c + 1)).type = 5))) ∧
       (getisflippable m R C r c false = 1 ↔
        (r < R - 1 ∧ 0 < c ∧ ((m r c).type = 0 ∨ (m r c).type = 4) ∧
         ((m (r + 1) (c - 1)).type = 1 ∨ (m (r + 1) (c - 1)).type = 4))))) ∧
    ((r < 0 ∨ r ≥ R ∨ c < 0 ∨ c ≥ C) →
      getisflippable m R C r c true = 0 ∧ getisflippable m R C r c false = 0) := by
  refine ⟨fun h1 h2 h3 h4 => ⟨?_, ?_⟩,
    fun h => ⟨getisflippable_out_of_range m R C r c true h,
      getisflippable_out_of_range m R C r c false h⟩⟩
  · rw [getisflippable_up_iff]
    constructor
    · rintro ⟨a1, _, _, a4, a5, a6⟩
      exact ⟨a1, a4, a5, a6⟩
    · rintro ⟨a1, a2, a3, a4⟩
      exact ⟨a1, h2, h3, a2, a3, a4⟩
  · rw [getisflippable_down_iff]
    constructor
    · rintro ⟨_, a2, a3, _, a5, a6⟩
      exact ⟨a2, a3, a5, a6⟩
    · rintro ⟨a1, a2, a3, a4⟩
      exact ⟨h1, a1, a2, h4, a3, a4⟩

/-- Witness for C2: at the in-range cell `(1,1)` of `mBi` the UP
characterisation applies and yields flippability 1. -/
theorem getisflippable_characterization_witness :
    getisflippable mBi 3 3 1 1 true = 1 := by
  have h := (getisflippable_characterization mBi 3 3 1 1).1
    (by decide) (by decide) (by decide) (by decide)
  exact h.1.mpr ⟨by decide, by decide, by decide, by decide⟩

/-- Collapsing the two sequential guarded relabellings of one cell into a
single two-way table lookup; `h` rules out the first write enabling the
second guard (which never happens in the source tables). -/
lemma relabel_chain (x a p b q : Int) (h : p ≠ b) :
    (if (if x = a then p else x) = b then q else (if x = a then p else x)) =
    (if x = a then p else if x = b then q else x) := by
  by_cases hxa : x = a
  · simp [hxa, h]
  · simp [hxa]

/-- C4: starting from a lattice with all in-range cell types in 0..5, an
accepted flip (`executeflip` at a flippable cell) leaves every in-range
cell type in 0..5. -/
theorem executeflip_types_in_range (m : Mat) (R C vol r c : Int) (d : Bool)
    (hty : ∀ i j : Int, 0 ≤ i → i < R → 0 ≤ j → j < C →
      0 ≤ (m i j).type ∧ (m i j).type ≤ 5)
    (hflip : getisflippable m R C r c d = 1) :
    ∀ i j : Int, 0 ≤ i → i < R → 0 ≤ j → j < C →
      0 ≤ (((executeflip m vol r c d).1) i j).type ∧
      (((executeflip m vol r c d).1) i j).type ≤ 5 := by
  intro i j hi1 hi2 hj1 hj2
  have hpre := hty i j hi1 hi2 hj1 hj2
  cases d
  · have hexec : (executeflip m vol r c false).1 =
        addHeightAt (updatepositions m r c false) (r + 1) (c - 1) 1 := rfl
    rw [hexec, addHeightAt_type]
    by_cases e1 : i = r ∧ j = c
    · obtain ⟨rfl, rfl⟩ := e1
      rw [upd_down_base]
      split_ifs <;> omega
    · by_cases e2 : i = r + 1 ∧ j = c - 1
      · obtain ⟨rfl, rfl⟩ := e2
        rw [upd_down_lowleft]
        split_ifs <;> omega
      · by_cases e3 : i = r ∧ j = c - 1
        · obtain ⟨rfl, rfl⟩ := e3
          rw [upd_down_left]
          split_ifs <;> omega
        · by_cases e4 : i = r + 1 ∧ j = c
          · obtain ⟨rfl, rfl⟩ := e4
            rw [upd_down_down]
            split_ifs <;> omega
          · rw [upd_down_frame m r c i j e1 e2 e3 e4]
            exact hpre
  · have hexec : (executeflip m vol r c true).1 =
        addHeightAt (updatepositions m r c true) r c (-1) := rfl
    rw [hexec, addHeightAt_type]
    by_cases e1 : i = r ∧ j = c
    · obtain ⟨rfl, rfl⟩ := e1
      rw [upd_up_base]
      split_ifs <;> omega
    · by_cases e2 : i = r - 1 ∧ j = c + 1
      · obtain ⟨rfl, rfl⟩ := e2
        rw [upd_up_upright]
        split_ifs <;> omega
      · by_cases e3 : i = r ∧ j = c + 1
        · obtain ⟨rfl, rfl⟩ := e3
          rw [upd_up_right]
          split_ifs <;> omega
        · by_cases e4 : i = r - 1 ∧ j = c
          · obtain ⟨rfl, rfl⟩ := e4
            rw [upd_up_up]
            split_ifs <;> omega
          · rw [upd_up_frame m r c i j e1 e2 e3 e4]
            exact hpre

/-- Witness for C4: after the UP flip at `(1,1)` of `mBi` the centre cell
type is still in 0..5. -/
theorem executeflip_types_in_range_witness :
    0 ≤ (((executeflip mBi 0 1 1 true).1) 1 1).type ∧
    (((executeflip mBi 0 1 1 true).1) 1 1).type ≤ 5 :=
  executeflip_types_in_range mBi 3 3 0 1 1 true
    (by intro i j h1 h2 h3 h4; interval_cases i <;> interval_cases j <;> decide)
    (by decide) 1 1 (by decide) (by decide) (by decide) (by decide)

/-- C6: for every flippable `(r, c, d)`, the value of `getweightratio` is
the product of the weights of the four post-move types divided by rho,
where the post-move types are exactly those `updatepositions` writes at the
same four cells (base, x-shift, y-shift, diagonal). -/
theorem getweightratio_matches_updatepositions (m : Mat) (R C r c : Int) (d : Bool)
    (wts : Int → ℚ) (rho : ℚ)
    (hflip : getisflippable m R C r c d = 1) :
    (d = true →
      getweightratio m wts rho r c d =
        wts ((updatepositions m r c d) r c).type *
        wts ((updatepositions m r c d) r (c + 1)).type *
        wts ((updatepositions m r c d) (r - 1) c).type *
        wts ((updatepositions m r c d) (r - 1) (c + 1)).type / rho) ∧
    (d = false →
      getweightratio m wts rho r c d =
        wts ((updatepositions m r c d) r c).type *
        wts ((updatepositions m r c d) r (c - 1)).type *
        wts ((updatepositions m r c d) (r + 1) c).type *
        wts ((updatepositions m r c d) (r + 1) (c - 1)).type / rho) := by
  constructor
  · intro hd
    subst hd
    rw [upd_up_base, upd_up_right, upd_up_up, upd_up_upright]
    simp only [getweightratio]
    norm_num
    rw [relabel_chain _ _ _ _ _ (by norm_num), relabel_chain _ _ _ _ _ (by norm_num),
      relabel_chain _ _ _ _ _ (by norm_num), relabel_chain _ _ _ _ _ (by norm_num),
      show c - 1 + 2 = c + 1 from by ring, show r + 1 - 2 = r - 1 from by ring]
  · intro hd
    subst hd
    rw [upd_down_base, upd_down_left, upd_down_down, upd_down_lowleft]
    simp only [getweightratio]
    norm_num
    rw [relabel_chain _ _ _ _ _ (by norm_num), relabel_chain _ _ _ _ _ (by norm_num),
      relabel_chain _ _ _ _ _ (by norm_num), relabel_chain _ _ _ _ _ (by norm_num)]

/-- Weight table with all six weights equal to 1 (for witnesses). -/
def wOne : Int → ℚ := fun _ => 1

/-- Witness for C6 at the concrete flippable input `(1,1)` of `mBi`. -/
theorem getweightratio_matches_updatepositions_witness :
    getweightratio mBi wOne 2 1 1 true =
      wOne ((updatepositions mBi 1 1 true) 1 1).type *
      wOne ((updatepositions mBi 1 1 true) 1 (1 + 1)).type *
      wOne ((updatepositions mBi 1 1 true) (1 - 1) 1).type *
      wOne ((updatepositions mBi 1 1 true) (1 - 1) (1 + 1)).type / 2 :=
  (getweightratio_matches_updatepositions mBi 3 3 1 1 true wOne 2 (by decide)).1 rfl

/-- C7: in the bi-flip branch (both directions flippable) one uniform draw
`u` selects by disjoint intervals: the UP flip executes (with
`flipcompleted` incremented) exactly when `u` is at most ratio(UP);
otherwise the DOWN flip executes (with `flipcompleted` incremented) when
`u` is at most ratio(UP) + ratio(DOWN); otherwise `flipfailed` is
incremented and the lattice is unchanged. -/
theorem biflip_branch_selection (s : SimState) (R C : Int) (wts : Int → ℚ) (rho : ℚ)
    (r c : Int) (u : ℚ)
    (hup : getisflippable s.mat R C r c true = 1)
    (hdown : getisflippable s.mat R C r c false = 1) :
    (u ≤ getweightratio s.mat wts rho r c true →
      biflipcase s wts rho r c u =
        { mat := (executeflip s.mat s.vol r c true).1,
          vol := (executeflip s.mat s.vol r c true).2,
          flipcompleted := s.flipcompleted + 1, flipfailed := s.flipfailed }) ∧
    (¬ u ≤ getweightratio s.mat wts rho r c true →
      u ≤ getweightratio s.mat wts rho r c true + getweightratio s.mat wts rho r c false →
      biflipcase s wts rho r c u =
        { mat := (executeflip s.mat s.vol r c false).1,
          vol := (executeflip s.mat s.vol r c false).2,
          flipcompleted := s.flipcompleted + 1, flipfailed := s.flipfailed }) ∧
    (¬ u ≤ getweightratio s.mat wts rho r c true →
      ¬ u ≤ getweightratio s.mat wts rho r c true + getweightratio s.mat wts rho r c false →
      biflipcase s wts rho r c u = { s with flipfailed := s.flipfailed + 1 }) := by
  refine ⟨fun h1 => ?_, fun h1 h2 => ?_, fun h1 h2 => ?_⟩ <;>
    simp only [biflipcase, ge_iff_le] <;> split_ifs <;> first | rfl | exact absurd (by assumption) (by assumption)

/-! ### Counting lemmas for the height invariant (claim C3) -/

/-- Height consistency of row `i`: each stored height equals the running
count of types 0, 2, 5 over columns `0..j` inclusive. -/
def rowHeightsOk (m : Mat) (C i : Int) : Prop :=
  ∀ j : Int, 0 ≤ j → j < C → (m i j).height = cnt m i (j.toNat + 1)

lemma cnt_congr (m m' : Mat) (i : Int)
    (h : ∀ b : Int, 0 ≤ b → hind (m' i b).type = hind (m i b).type) :
    ∀ n : ℕ, cnt m' i n = cnt m i n := by
  intro n
  induction n with
  | zero => rfl
  | succ k ih => simp only [cnt, ih, h (k : Int) (Int.natCast_nonneg k)]

lemma cnt_two_col_delta (m m' : Mat) (i p : Int) (hp : 0 ≤ p) (d1 d2 : Int)
    (h1 : hind (m' i p).type = hind (m i p).type + d1)
    (h2 : hind (m' i (p + 1)).type = hind (m i (p + 1)).type + d2)
    (hoth : ∀ b : Int, b ≠ p → b ≠ p + 1 → hind (m' i b).type = hind (m i b).type) :
    ∀ n : ℕ, cnt m' i n =
      cnt m i n + (if p < (n : Int) then d1 else 0) + (if p + 1 < (n : Int) then d2 else 0) := by
  intro n
  induction n with
  | zero =>
    simp only [cnt, Nat.cast_zero]
    split_ifs <;> omega
  | succ k ih =>
    have hk : ((k + 1 : ℕ) : Int) = (k : Int) + 1 := by push_cast; ring
    simp only [cnt, ih, hk]
    by_cases e1 : (k : Int) = p
    · rw [← e1] at h1
      rw [h1]
      split_ifs <;> omega
    · by_cases e2 : (k : Int) = p + 1
      · rw [← e2] at h2
        rw [h2]
        split_ifs <;> omega
      · rw [hoth (k : Int) e1 e2]
        split_ifs <;> omega

lemma heightsRow_congr (m m' : Mat) (i : Int)
    (h : ∀ b : Int, 0 ≤ b → (m' i b).height = (m i b).height) :
    ∀ n : ℕ, heightsRow m' i n = heightsRow m i n := by
  intro n
  induction n with
  | zero => rfl
  | succ k ih => simp only [heightsRow, ih, h (k : Int) (Int.natCast_nonneg k)]

lemma heightsRow_delta (m m' : Mat) (i p : Int) (hp : 0 ≤ p) (d : Int)
    (h1 : (m' i p).height = (m i p).height + d)
    (hoth : ∀ b : Int, b ≠ p → (m' i b).height = (m i b).height) :
    ∀ n : ℕ, heightsRow m' i n = heightsRow m i n + (if p < (n : Int) then d else 0) := by
  intro n
  induction n with
  | zero =>
    simp only [heightsRow, Nat.cast_zero]
    split_ifs <;> omega
  | succ k ih =>
    have hk : ((k + 1 : ℕ) : Int) = (k : Int) + 1 := by push_cast; ring
    simp only [heightsRow, ih, hk]
    by_cases e1 : (k : Int) = p
    · rw [← e1] at h1
      rw [h1]
      split_ifs <;> omega
    · rw [hoth (k : Int) e1]
      split_ifs <;> omega

lemma heightsTotal_delta (m m' : Mat) (C : ℕ) (rr : Int) (hr : 0 ≤ rr) (d : Int)
    (hrow : heightsRow m' rr C = heightsRow m rr C + d)
    (hoth : ∀ i : Int, i ≠ rr → heightsRow m' i C = heightsRow m i C) :
    ∀ K : ℕ, heightsTotal m' C K = heightsTotal m C K + (if rr < (K : Int) then d else 0) := by
  intro K
  induction K with
  | zero =>
    simp only [heightsTotal, Nat.cast_zero]
    split_ifs <;> omega
  | succ k ih =>
    have hk : ((k + 1 : ℕ) : Int) = (k : Int) + 1 := by push_cast; ring
    simp only [heightsTotal, ih, hk]
    by_cases e1 : (k : Int) = rr
    · rw [e1, hrow]
      split_ifs <;> omega
    · rw [hoth (k : Int) e1]
      split_ifs <;> omega

/-- The UP upper-right relabelling (1 to 4, 5 to 0) preserves the height
indicator. -/
lemma hind_up_upright (x : Int) :
    hind (if x = 1 then 4 else if x = 5 then 0 else x) = hind x := by
  unfold hind
  split_ifs <;> omega

/-- The UP up relabelling (2 to 5, 4 to 3) preserves the height indicator. -/
lemma hind_up_up (x : Int) :
    hind (if x = 2 then 5 else if x = 4 then 3 else x) = hind x := by
  unfold hind
  split_ifs <;> omega

/-- The DOWN base relabelling (4 to 1, 0 to 5) preserves the height
indicator. -/
lemma hind_down_base (x : Int) :
    hind (if x = 4 then 1 else if x = 0 then 5 else x) = hind x := by
  unfold hind
  split_ifs <;> omega

/-- The DOWN left relabelling (5 to 2, 3 to 4) preserves the height
indicator. -/
lemma hind_down_left (x : Int) :
    hind (if x = 5 then 2 else if x = 3 then 4 else x) = hind x := by
  unfold hind
  split_ifs <;> omega

/-- The UP base relabelling lowers the indicator by one when the base type
is 0 or 5 (the flippable pre-types). -/
lemma hind_up_base_flip (x : Int) (hx : x = 0 ∨ x = 5) :
    hind (if x = 0 then 4 else if x = 5 then 1 else x) = hind x - 1 := by
  rcases hx with rfl | rfl <;> decide

/-- The UP right relabelling raises the indicator by one when the right
cell pre-type is 3 or 4 (in the table). -/
lemma hind_up_right_flip (x : Int) (hx : x = 3 ∨ x = 4) :
    hind (if x = 3 then 5 else if x = 4 then 2 else x) = hind x + 1 := by
  rcases hx with rfl | rfl <;> decide

/-- The DOWN lower-left relabelling raises the indicator by one when the
pre-type is 1 or 4 (the flippable pre-types). -/
lemma hind_down_lowleft_flip (x : Int) (hx : x = 1 ∨ x = 4) :
    hind (if x = 4 then 0 else if x = 1 then 5 else x) = hind x + 1 := by
  rcases hx with rfl | rfl <;> decide

/-- The DOWN down relabelling lowers the indicator by one when the down
cell pre-type is 2 or 5 (in the table). -/
lemma hind_down_down_flip (x : Int) (hx : x = 2 ∨ x = 5) :
    hind (if x = 5 then 3 else if x = 2 then 4 else x) = hind x - 1 := by
  rcases hx with rfl | rfl <;> decide

lemma executeflip_type_fst (m : Mat) (vol r c : Int) (t : Bool) (a b : Int) :
    ((executeflip m vol r c t).1 a b).type = ((updatepositions m r c t) a b).type := by
  cases t
  · have e : (executeflip m vol r c false).1 =
        addHeightAt (updatepositions m r c false) (r + 1) (c - 1) 1 := rfl
    rw [e, addHeightAt_type]
  · have e : (executeflip m vol r c true).1 =
        addHeightAt (updatepositions m r c true) r c (-1) := rfl
    rw [e, addHeightAt_type]

lemma executeflip_height_up (m : Mat) (vol r c a b : Int) :
    ((executeflip m vol r c true).1 a b).height =
      (m a b).height + (if a = r ∧ b = c then -1 else 0) := by
  have e : (executeflip m vol r c true).1 =
      addHeightAt (updatepositions m r c true) r c (-1) := rfl
  rw [e, addHeightAt_height, upd_height]

lemma executeflip_height_down (m : Mat) (vol r c a b : Int) :
    ((executeflip m vol r c false).1 a b).height =
      (m a b).height + (if a = r + 1 ∧ b = c - 1 then 1 else 0) := by
  have e : (executeflip m vol r c false).1 =
      addHeightAt (updatepositions m r c false) (r + 1) (c - 1) 1 := rfl
  rw [e, addHeightAt_height, upd_height]

/-- C3 (amended): an accepted flip preserves height consistency on both
affected rows and keeps the volume counter equal to the sum of stored
heights, provided additionally the same-row neighbour cell — `(r, c+1)`
for UP, `(r+1, c)` for DOWN — has a pre-type in the relabelling table
(3 or 4 for UP; 2 or 5 for DOWN).  Without that proviso the original claim
fails (see the counterexample). -/
theorem executeflip_height_consistency_amended (m : Mat) (R C : ℕ) (vol r c : Int) (d : Bool)
    (hcons : ∀ i : Int, 0 ≤ i → i < (R : Int) → rowHeightsOk m (C : Int) i)
    (hvol : vol = heightsTotal m C R)
    (hflip : getisflippable m (R : Int) (C : Int) r c d = 1)
    (hnbr : (d = true → (m r (c + 1)).type = 3 ∨ (m r (c + 1)).type = 4) ∧
            (d = false → (m (r + 1) c).type = 2 ∨ (m (r + 1) c).type = 5)) :
    (d = true → rowHeightsOk (executeflip m vol r c d).1 (C : Int) r ∧
                rowHeightsOk (executeflip m vol r c d).1 (C : Int) (r - 1)) ∧
    (d = false → rowHeightsOk (executeflip m vol r c d).1 (C : Int) r ∧
                 rowHeightsOk (executeflip m vol r c d).1 (C : Int) (r + 1)) ∧
    (executeflip m vol r c d).2 = heightsTotal (executeflip m vol r c d).1 C R := by
  cases d
  · -- DOWN flip
    obtain ⟨hr0, hrR, hc0, hcC, hbase, hLL⟩ := (getisflippable_down_iff m R C r c).mp hflip
    have hnb := hnbr.2 rfl
    have htypes : ∀ a b : Int, ((executeflip m vol r c false).1 a b).type =
        ((updatepositions m r c false) a b).type :=
      fun a b => executeflip_type_fst m vol r c false a b
    have hheights := executeflip_height_down m vol r c
    -- indicator facts on row r + 1
    have hA : hind ((executeflip m vol r c false).1 (r + 1) (c - 1)).type =
        hind (m (r + 1) (c - 1)).type + 1 := by
      rw [htypes, upd_down_lowleft]
      exact hind_down_lowleft_flip _ hLL
    have hB : hind ((executeflip m vol r c false).1 (r + 1) c).type =
        hind (m (r + 1) c).type + (-1) := by
      rw [htypes, upd_down_down]
      have := hind_down_down_flip (m (r + 1) c).type hnb
      omega
    have hBrw : hind ((executeflip m vol r c false).1 (r + 1) (c - 1 + 1)).type =
        hind (m (r + 1) (c - 1 + 1)).type + (-1) := by
      rw [show c - 1 + 1 = c from by ring]
      exact hB
    have hCoth : ∀ b : Int, b ≠ c - 1 → b ≠ c - 1 + 1 →
        hind ((executeflip m vol r c false).1 (r + 1) b).type = hind (m (r + 1) b).type := by
      intro b e1 e2
      rw [htypes, upd_down_frame m r c (r + 1) b (fun hh => by omega)
        (fun hh => e1 hh.2) (fun hh => by omega) (fun hh => e2 (by omega))]
    have hcntr := cnt_two_col_delta m ((executeflip m vol r c false).1) (r + 1) (c - 1)
      (by omega) 1 (-1) hA hBrw hCoth
    -- indicator facts on row r (unchanged)
    have hCongr : ∀ b : Int, 0 ≤ b →
        hind ((executeflip m vol r c false).1 r b).type = hind (m r b).type := by
      intro b hb
      rw [htypes]
      by_cases e1 : b = c
      · subst e1
        rw [upd_down_base]
        exact hind_down_base _
      · by_cases e2 : b = c - 1
        · subst e2
          rw [upd_down_left]
          exact hind_down_left _
        · rw [upd_down_frame m r c r b (fun hh => e1 hh.2) (fun hh => by omega)
            (fun hh => e2 hh.2) (fun hh => by omega)]
    have hcnt1 := cnt_congr m ((executeflip m vol r c false).1) r hCongr
    refine ⟨fun hd => absurd hd (by decide), fun _ => ⟨?_, ?_⟩, ?_⟩
    · -- row r stays consistent (its heights and indicators are unchanged)
      intro j hj0 hjC
      rw [hheights r j, hcons r (by omega) (by omega) j hj0 hjC, hcnt1 (j.toNat + 1)]
      split_ifs <;> omega
    · -- row r + 1 stays consistent given the neighbour proviso
      intro j hj0 hjC
      rw [hheights (r + 1) j, hcons (r + 1) (by omega) (by omega) j hj0 hjC,
        hcntr (j.toNat + 1)]
      have hcast : ((j.toNat + 1 : ℕ) : Int) = j + 1 := by omega
      rw [hcast]
      split_ifs <;> omega
    · -- the volume counter still equals the sum of stored heights
      have hrowr : heightsRow ((executeflip m vol r c false).1) (r + 1) C =
          heightsRow m (r + 1) C + 1 := by
        have hd := heightsRow_delta m ((executeflip m vol r c false).1) (r + 1) (c - 1)
          (by omega) 1
          (by rw [hheights (r + 1) (c - 1)]; simp)
          (fun b hb => by
            rw [hheights (r + 1) b, if_neg (fun hh => hb hh.2)]
            ring) C
        rw [hd]
        have : c - 1 < (C : Int) := by omega
        split_ifs <;> omega
      have hrowoth : ∀ i : Int, i ≠ r + 1 →
          heightsRow ((executeflip m vol r c false).1) i C = heightsRow m i C := by
        intro i hi
        exact heightsRow_congr m _ i (fun b hb => by
          rw [hheights i b, if_neg (fun hh => hi hh.1)]
          ring) C
      have htot := heightsTotal_delta m ((executeflip m vol r c false).1) C (r + 1)
        (by omega) 1 hrowr hrowoth R
      have hv2 : (executeflip m vol r c false).2 = vol + 1 := rfl
      rw [hv2, htot]
      split_ifs <;> omega
  · -- UP flip
    obtain ⟨hr0, hrR, hc0, hcC, hbase, hUR⟩ := (getisflippable_up_iff m R C r c).mp hflip
    have hnb := hnbr.1 rfl
    have htypes : ∀ a b : Int, ((executeflip m vol r c true).1 a b).type =
        ((updatepositions m r c true) a b).type :=
      fun a b => executeflip_type_fst m vol r c true a b
    have hheights := executeflip_height_up m vol r c
    have hA : hind ((executeflip m vol r c true).1 r c).type =
        hind (m r c).type + (-1) := by
      rw [htypes, upd_up_base]
      have := hind_up_base_flip (m r c).type hbase
      omega
    have hB : hind ((executeflip m vol r c true).1 r (c + 1)).type =
        hind (m r (c + 1)).type + 1 := by
      rw [htypes, upd_up_right]
      exact hind_up_right_flip _ hnb
    have hCoth : ∀ b : Int, b ≠ c → b ≠ c + 1 →
        hind ((executeflip m vol r c true).1 r b).type = hind (m r b).type := by
      intro b e1 e2
      rw [htypes, upd_up_frame m r c r b (fun hh => e1 hh.2) (fun hh => by omega)
        (fun hh => e2 hh.2) (fun hh => by omega)]
    have hcntr := cnt_two_col_delta m ((executeflip m vol r c true).1) r c hc0 (-1) 1
      hA hB hCoth
    have hCongr : ∀ b : Int, 0 ≤ b →
        hind ((executeflip m vol r c true).1 (r - 1) b).type = hind (m (r - 1) b).type := by
      intro b hb
      rw [htypes]
      by_cases e1 : b = c + 1
      · subst e1
        rw [upd_up_upright]
        exact hind_up_upright _
      · by_cases e2 : b = c
        · subst e2
          rw [upd_up_up]
          exact hind_up_up _
        · rw [upd_up_frame m r c (r - 1) b (fun hh => by omega) (fun hh => e1 hh.2)
            (fun hh => by omega) (fun hh => e2 hh.2)]
    have hcnt1 := cnt_congr m ((executeflip m vol r c true).1) (r - 1) hCongr
    refine ⟨fun _ => ⟨?_, ?_⟩, fun hd => absurd hd (by decide), ?_⟩
    · -- row r consistency
      intro j hj0 hjC
      rw [hheights r j, hcons r (by omega) (by omega) j hj0 hjC, hcntr (j.toNat + 1)]
      have hcast : ((j.toNat + 1 : ℕ) : Int) = j + 1 := by omega
      rw [hcast]
      split_ifs <;> omega
    · -- row r - 1 consistency
      intro j hj0 hjC
      rw [hheights (r - 1) j, hcons (r - 1) (by omega) (by omega) j hj0 hjC,
        hcnt1 (j.toNat + 1)]
      split_ifs <;> omega
    · -- volume counter
      have hrowr : heightsRow ((executeflip m vol r c true).1) r C =
          heightsRow m r C + (-1) := by
        have hd := heightsRow_delta m ((executeflip m vol r c true).1) r c hc0 (-1)
          (by rw [hheights r c]; simp)
          (fun b hb => by
            rw [hheights r b, if_neg (fun hh => hb hh.2)]
            ring) C
        rw [hd]
        have : c < (C : Int) := by omega
        split_ifs <;> omega
      have hrowoth : ∀ i : Int, i ≠ r →
          heightsRow ((executeflip m vol r c true).1) i C = heightsRow m i C := by
        intro i hi
        exact heightsRow_congr m _ i (fun b hb => by
          rw [hheights i b, if_neg (fun hh => hi hh.1)]
          ring) C
      have htot := heightsTotal_delta m ((executeflip m vol r c true).1) C r
        (by omega) (-1) hrowr hrowoth R
      have hv2 : (executeflip m vol r c true).2 = vol - 1 := rfl
      rw [hv2, htot]
      split_ifs <;> omega

/-- The 2x2 lattice refuting the original C3: types row 0 are 0, 1 and
row 1 is 0, 0 with consistent heights 1, 1, 1, 2 and volume 5; the UP flip
at `(1,0)` is admissible but its right neighbour `(1,1)` has type 0, which
is not in the relabelling table. -/
def mC3 : Mat := fun i j =>
  if i = 0 ∧ j = 0 then ⟨0, 1⟩
  else if i = 0 ∧ j = 1 then ⟨1, 1⟩
  else if i = 1 ∧ j = 0 then ⟨0, 1⟩
  else if i = 1 ∧ j = 1 then ⟨0, 2⟩
  else ⟨0, 0⟩

/-- Counterexample to C3 as stated: on `mC3` every stored height matches
the running count, the volume counter 5 matches the height sum, the UP
flip at `(1,0)` is flippable and accepted, yet afterwards the stored
height of cell `(1,1)` — a cell of the mutated row — no longer equals the
running count. -/
theorem executeflip_height_stale_cex :
    (mC3 0 0).height = cnt mC3 0 1 ∧ (mC3 0 1).height = cnt mC3 0 2 ∧
    (mC3 1 0).height = cnt mC3 1 1 ∧ (mC3 1 1).height = cnt mC3 1 2 ∧
    (5 : Int) = heightsTotal mC3 2 2 ∧
    getisflippable mC3 2 2 1 0 true = 1 ∧
    ¬ (((executeflip mC3 5 1 0 true).1 1 1).height =
        cnt ((executeflip mC3 5 1 0 true).1) 1 2) := by
  decide

/-- The 2x2 lattice for the amended-C3 witness: as `mC3` but the right
neighbour `(1,1)` carries the in-table type 3. -/
def mC3w : Mat := fun i j =>
  if i = 0 ∧ j = 0 then ⟨0, 1⟩
  else if i = 0 ∧ j = 1 then ⟨1, 1⟩
  else if i = 1 ∧ j = 0 then ⟨0, 1⟩
  else if i = 1 ∧ j = 1 then ⟨3, 1⟩
  else ⟨0, 0⟩

/-- Witness for the amended C3 at the concrete input `mC3w`. -/
theorem executeflip_height_consistency_amended_witness :
    getisflippable mC3w 2 2 1 0 true = 1 ∧
    rowHeightsOk ((executeflip mC3w 4 1 0 true).1) 2 1 := by
  refine ⟨by decide, ?_⟩
  have h := executeflip_height_consistency_amended mC3w 2 2 4 1 0 true
    (by
      intro i h1 h2
      interval_cases i <;>
        · intro j hj1 hj2
          interval_cases j <;> decide)
    (by decide) (by decide)
    ⟨fun _ => by decide, fun hh => absurd hh (by decide)⟩
  exact (h.1 rfl).1

/-! ### Bounding the acceptance ratio by rho (claim C5) -/

lemma le_foldl_max (l : List ℚ) (a : ℚ) : a ≤ l.foldl max a := by
  induction l generalizing a with
  | nil => exact le_refl a
  | cons h t ih => exact le_trans (le_max_left a h) (ih (max a h))

lemma foldl_max_le_of_mem (l : List ℚ) : ∀ (a x : ℚ), x ∈ l → x ≤ l.foldl max a := by
  induction l with
  | nil =>
    intro a x hx
    cases hx
  | cons h t ih =>
    intro a x hx
    rcases List.mem_cons.mp hx with rfl | hx2
    · exact le_trans (le_max_right a x) (le_foldl_max t (max a x))
    · exact ih (max a h) x hx2

lemma le_definerho (w : Int → ℚ) (x : ℚ) (hx : x ∈ rhoEntries w) : x ≤ definerho w :=
  foldl_max_le_of_mem (rhoEntries w) 0 x hx

lemma definerho_pos (w : Int → ℚ) (hpos : ∀ k : Int, 0 ≤ k → k ≤ 5 → 0 < w k) :
    0 < definerho w := by
  have h1 := hpos 1 (by norm_num) (by norm_num)
  have h4 := hpos 4 (by norm_num) (by norm_num)
  have h5 := hpos 5 (by norm_num) (by norm_num)
  exact lt_of_lt_of_le (mul_pos (mul_pos (mul_pos h1 h4) h5) h4)
    (le_definerho w _ (by simp [rhoEntries]))

lemma wprod_nonneg (wts : Int → ℚ) (hpos : ∀ k : Int, 0 ≤ k → k ≤ 5 → 0 < wts k)
    (a b c d : Int) (ha : 0 ≤ a ∧ a ≤ 5) (hb : 0 ≤ b ∧ b ≤ 5)
    (hc : 0 ≤ c ∧ c ≤ 5) (hd : 0 ≤ d ∧ d ≤ 5) :
    0 ≤ wts a * wts b * wts c * wts d :=
  mul_nonneg (mul_nonneg (mul_nonneg (hpos a ha.1 ha.2).le (hpos b hb.1 hb.2).le)
    (hpos c hc.1 hc.2).le) (hpos d hd.1 hd.2).le

lemma ratio_unit_of_le (num rho : ℚ) (h0 : 0 ≤ num) (hrho : 0 < rho) (h : num ≤ rho) :
    0 ≤ num / rho ∧ num / rho ≤ 1 :=
  ⟨div_nonneg h0 hrho.le, (div_le_one hrho).mpr h⟩

/-- A post-product with base weight `w 1` (UP single move, base pre-type 5)
is bounded by any bound on its reordering into the enumerated slot order. -/
lemma up_perm_le (a b c d R2 : ℚ) (h : a * c * d * b ≤ R2) : a * b * c * d ≤ R2 := by
  calc a * b * c * d = a * c * d * b := by ring
  _ ≤ R2 := h

/-- A post-product in the DOWN single-move slot order. -/
lemma down_perm_le (a b c d R2 : ℚ) (h : a * b * d * c ≤ R2) : a * b * c * d ≤ R2 := by
  calc a * b * c * d = a * b * d * c := by ring
  _ ≤ R2 := h

/-- An UP post-product with base weight `wts 4` (base pre-type 0) is covered
through a bi-flip sum entry whose canonical first term is positive. -/
lemma up0_le (wts : Int → ℚ) (b c d R2 : ℚ)
    (hS : 0 < wts 5 * wts 4 * wts 5 * wts 4)
    (h : wts 5 * wts 4 * wts 5 * wts 4 + wts 4 * c * d * b ≤ R2) :
    wts 4 * b * c * d ≤ R2 := by
  have h2 : wts 4 * c * d * b ≤ R2 := by linarith
  calc wts 4 * b * c * d = wts 4 * c * d * b := by ring
  _ ≤ R2 := h2

/-- A DOWN post-product with base weight `wts 5` (base pre-type 0) is
covered through a bi-flip sum entry whose second term is positive. -/
lemma down0_le (wts : Int → ℚ) (b c d R2 : ℚ)
    (hT : 0 < wts 4 * wts 3 * wts 4 * wts 5)
    (h : wts 5 * b * d * c + wts 4 * wts 3 * wts 4 * wts 5 ≤ R2) :
    wts 5 * b * c * d ≤ R2 := by
  have h2 : wts 5 * b * d * c ≤ R2 := by linarith
  calc wts 5 * b * c * d = wts 5 * b * d * c := by ring
  _ ≤ R2 := h2

/-- A bi-flip pair (UP product plus DOWN product) reordered into the
enumerated sum layout. -/
lemma biflip_perm_le (a b c d e f g h R2 : ℚ)
    (hle : e * f * h * g + a * c * d * b ≤ R2) :
    a * b * c * d + e * f * g * h ≤ R2 := by
  calc a * b * c * d + e * f * g * h = e * f * h * g + a * c * d * b := by ring
  _ ≤ R2 := hle

/-- `getweightratio` in direction UP as an explicit product of relabelled
weights over `rho`. -/
lemma getweightratio_up_eq (m : Mat) (wts : Int → ℚ) (rho : ℚ) (r c : Int) :
    getweightratio m wts rho r c true =
      wts (if (m r c).type = 0 then 4 else if (m r c).type = 5 then 1 else (m r c).type) *
      wts (if (m r (c + 1)).type = 3 then 5
        else if (m r (c + 1)).type = 4 then 2 else (m r (c + 1)).type) *
      wts (if (m (r - 1) c).type = 2 then 5
        else if (m (r - 1) c).type = 4 then 3 else (m (r - 1) c).type) *
      wts (if (m (r - 1) (c + 1)).type = 1 then 4
        else if (m (r - 1) (c + 1)).type = 5 then 0 else (m (r - 1) (c + 1)).type) / rho := by
  simp only [getweightratio]
  norm_num
  rw [relabel_chain _ _ _ _ _ (by norm_num), relabel_chain _ _ _ _ _ (by norm_num),
    relabel_chain _ _ _ _ _ (by norm_num), relabel_chain _ _ _ _ _ (by norm_num),
    show c - 1 + 2 = c + 1 from by ring, show r + 1 - 2 = r - 1 from by ring]

/-- `getweightratio` in direction DOWN as an explicit product of relabelled
weights over `rho`. -/
lemma getweightratio_down_eq (m : Mat) (wts : Int → ℚ) (rho : ℚ) (r c : Int) :
    getweightratio m wts rho r c false =
      wts (if (m r c).type = 4 then 1 else if (m r c).type = 0 then 5 else (m r c).type) *
      wts (if (m r (c - 1)).type = 5 then 2
        else if (m r (c - 1)).type = 3 then 4 else (m r (c - 1)).type) *
      wts (if (m (r + 1) c).type = 5 then 3
        else if (m (r + 1) c).type = 2 then 4 else (m (r + 1) c).type) *
      wts (if (m (r + 1) (c - 1)).type = 4 then 0
        else if (m (r + 1) (c - 1)).type = 1 then 5 else (m (r + 1) (c - 1)).type) / rho := by
  simp only [getweightratio]
  norm_num
  rw [relabel_chain _ _ _ _ _ (by norm_num), relabel_chain _ _ _ _ _ (by norm_num),
    relabel_chain _ _ _ _ _ (by norm_num), relabel_chain _ _ _ _ _ (by norm_num)]

set_option maxHeartbeats 1600000 in
/-- C5 (amended): with rho computed by `definerho` from six positive
weights, the acceptance ratio lies in the unit interval for every
flippable move whose non-base participating cells carry pre-types from the
relabelling table, excluding (for an UP move with base type 0, and for
every bi-flip) the uncovered combination of up-cell pre-type 2 with
upper-right pre-type 5; under the same conditions a bi-flip sum of ratios
lies in the unit interval.  Without these pre-type conditions the original
claim fails (see the counterexample). -/
theorem weightratio_bounds_amended (m : Mat) (R C r c : Int) (wts : Int → ℚ)
    (hpos : ∀ k : Int, 0 ≤ k → k ≤ 5 → 0 < wts k) :
    (getisflippable m R C r c true = 1 →
      ((m r (c + 1)).type = 3 ∨ (m r (c + 1)).type = 4) →
      ((m (r - 1) c).type = 2 ∨ (m (r - 1) c).type = 4) →
      ((m r c).type = 5 ∨ ¬((m (r - 1) c).type = 2 ∧ (m (r - 1) (c + 1)).type = 5)) →
      0 ≤ getweightratio m wts (definerho wts) r c true ∧
        getweightratio m wts (definerho wts) r c true ≤ 1) ∧
    (getisflippable m R C r c false = 1 →
      ((m r (c - 1)).type = 5 ∨ (m r (c - 1)).type = 3) →
      ((m (r + 1) c).type = 2 ∨ (m (r + 1) c).type = 5) →
      0 ≤ getweightratio m wts (definerho wts) r c false ∧
        getweightratio m wts (definerho wts) r c false ≤ 1) ∧
    (getisflippable m R C r c true = 1 → getisflippable m R C r c false = 1 →
      ((m r (c + 1)).type = 3 ∨ (m r (c + 1)).type = 4) →
      ((m (r - 1) c).type = 2 ∨ (m (r - 1) c).type = 4) →
      ¬((m (r - 1) c).type = 2 ∧ (m (r - 1) (c + 1)).type = 5) →
      ((m r (c - 1)).type = 5 ∨ (m r (c - 1)).type = 3) →
      ((m (r + 1) c).type = 2 ∨ (m (r + 1) c).type = 5) →
      0 ≤ getweightratio m wts (definerho wts) r c true +
          getweightratio m wts (definerho wts) r c false ∧
        getweightratio m wts (definerho wts) r c true +
          getweightratio m wts (definerho wts) r c false ≤ 1) := by
  have hrho := definerho_pos wts hpos
  have h3p := hpos 3 (by norm_num) (by norm_num)
  have h4p := hpos 4 (by norm_num) (by norm_num)
  have h5p := hpos 5 (by norm_num) (by norm_num)
  have hS44 : 0 < wts 5 * wts 4 * wts 5 * wts 4 :=
    mul_pos (mul_pos (mul_pos h5p h4p) h5p) h4p
  have hT : 0 < wts 4 * wts 3 * wts 4 * wts 5 :=
    mul_pos (mul_pos (mul_pos h4p h3p) h4p) h5p
  refine ⟨?_, ?_, ?_⟩
  · intro hflip hx hy hext
    obtain ⟨_, _, _, _, hbase, hUR⟩ := (getisflippable_up_iff m R C r c).mp hflip
    rw [getweightratio_up_eq]
    rcases hbase with hb | hb
    · have hext2 : ¬((m (r - 1) c).type = 2 ∧ (m (r - 1) (c + 1)).type = 5) := by
        rcases hext with h5 | hgood
        · exact absurd h5 (by omega)
        · exact hgood
      have hcase : ((m (r - 1) c).type = 2 ∧ (m (r - 1) (c + 1)).type = 1) ∨
          ((m (r - 1) c).type = 4 ∧ (m (r - 1) (c + 1)).type = 1) ∨
          ((m (r - 1) c).type = 4 ∧ (m (r - 1) (c + 1)).type = 5) := by
        rcases hy with h2 | h4
        · rcases hUR with hu1 | hu5
          · exact Or.inl ⟨h2, hu1⟩
          · exact absurd ⟨h2, hu5⟩ hext2
        · rcases hUR with hu1 | hu5
          · exact Or.inr (Or.inl ⟨h4, hu1⟩)
          · exact Or.inr (Or.inr ⟨h4, hu5⟩)
      rcases hcase with ⟨hyy, huu⟩ | ⟨hyy, huu⟩ | ⟨hyy, huu⟩ <;> rcases hx with hxx | hxx <;>
        (rw [hb, hxx, hyy, huu]
         norm_num
         refine ratio_unit_of_le _ _
           (wprod_nonneg wts hpos _ _ _ _ (by norm_num) (by norm_num) (by norm_num)
             (by norm_num)) hrho ?_
         refine up0_le wts _ _ _ _ hS44 (le_definerho wts _ ?_)
         simp [rhoEntries])
    · rcases hx with hxx | hxx <;> rcases hy with hyy | hyy <;> rcases hUR with huu | huu <;>
        (rw [hb, hxx, hyy, huu]
         norm_num
         refine ratio_unit_of_le _ _
           (wprod_nonneg wts hpos _ _ _ _ (by norm_num) (by norm_num) (by norm_num)
             (by norm_num)) hrho ?_
         refine up_perm_le _ _ _ _ _ (le_definerho wts _ ?_)
         simp [rhoEntries])
  · intro hflip hx2 hy2
    obtain ⟨_, _, _, _, hbase, hLL⟩ := (getisflippable_down_iff m R C r c).mp hflip
    rw [getweightratio_down_eq]
    rcases hbase with hb | hb
    · rcases hx2 with hxx | hxx <;> rcases hy2 with hyy | hyy <;> rcases hLL with hll | hll <;>
        (rw [hb, hxx, hyy, hll]
         norm_num
         refine ratio_unit_of_le _ _
           (wprod_nonneg wts hpos _ _ _ _ (by norm_num) (by norm_num) (by norm_num)
             (by norm_num)) hrho ?_
         refine down0_le wts _ _ _ _ hT (le_definerho wts _ ?_)
         simp [rhoEntries])
    · rcases hx2 with hxx | hxx <;> rcases hy2 with hyy | hyy <;> rcases hLL with hll | hll <;>
        (rw [hb, hxx, hyy, hll]
         norm_num
         refine ratio_unit_of_le _ _
           (wprod_nonneg wts hpos _ _ _ _ (by norm_num) (by norm_num) (by norm_num)
             (by norm_num)) hrho ?_
         refine down_perm_le _ _ _ _ _ (le_definerho wts _ ?_)
         simp [rhoEntries])
  · intro hfu hfd hx hy hexcl hx2 hy2
    obtain ⟨_, _, _, _, hbaseU, hUR⟩ := (getisflippable_up_iff m R C r c).mp hfu
    obtain ⟨_, _, _, _, hbaseD, hLL⟩ := (getisflippable_down_iff m R C r c).mp hfd
    have hb : (m r c).type = 0 := by
      rcases hbaseU with h | h <;> rcases hbaseD with h2 | h2 <;> omega
    rw [getweightratio_up_eq, getweightratio_down_eq]
    have hcase : ((m (r - 1) c).type = 2 ∧ (m (r - 1) (c + 1)).type = 1) ∨
        ((m (r - 1) c).type = 4 ∧ (m (r - 1) (c + 1)).type = 1) ∨
        ((m (r - 1) c).type = 4 ∧ (m (r - 1) (c + 1)).type = 5) := by
      rcases hy with h2 | h4
      · rcases hUR with hu1 | hu5
        · exact Or.inl ⟨h2, hu1⟩
        · exact absurd ⟨h2, hu5⟩ hexcl
      · rcases hUR with hu1 | hu5
        · exact Or.inr (Or.inl ⟨h4, hu1⟩)
        · exact Or.inr (Or.inr ⟨h4, hu5⟩)
    rcases hcase with ⟨hyy, huu⟩ | ⟨hyy, huu⟩ | ⟨hyy, huu⟩ <;> rcases hx with hxx | hxx <;>
      rcases hx2 with hxx2 | hxx2 <;> rcases hy2 with hyy2 | hyy2 <;>
      rcases hLL with hll | hll <;>
      (rw [hb, hxx, hyy, huu, hxx2, hyy2, hll]
       norm_num
       rw [div_add_div_same]
       refine ratio_unit_of_le _ _
         (add_nonneg
           (wprod_nonneg wts hpos _ _ _ _ (by norm_num) (by norm_num) (by norm_num)
             (by norm_num))
           (wprod_nonneg wts hpos _ _ _ _ (by norm_num) (by norm_num) (by norm_num)
             (by norm_num))) hrho ?_
       refine biflip_perm_le _ _ _ _ _ _ _ _ _ (le_definerho wts _ ?_)
       simp [rhoEntries])

/-- The weights refuting the original C5: `(16, 1, 1, 1, 2, 4)`, all
positive. -/
def wtsCE : Int → ℚ := fun k =>
  if k = 0 then 16 else if k = 4 then 2 else if k = 5 then 4 else 1

/-- The 2x2 lattice refuting the original C5: base `(1,0)` of type 0 with
every other cell of type 5.  The UP flip at `(1,0)` is admissible, its
post-product is `w4 * w5 * w5 * w0 = 512`, but `definerho` only reaches
384. -/
def mC5 : Mat := fun i j =>
  if i = 1 ∧ j = 0 then ⟨0, 0⟩ else ⟨5, 0⟩

/-- Counterexample to C5 as stated: with the positive weights `wtsCE` and
rho computed by `definerho`, the admissible (flippable) UP move at `(1,0)`
of `mC5` has acceptance ratio strictly greater than 1. -/
theorem weightratio_exceeds_one_cex :
    getisflippable mC5 2 2 1 0 true = 1 ∧
    (0 < wtsCE 0 ∧ 0 < wtsCE 1 ∧ 0 < wtsCE 2 ∧ 0 < wtsCE 3 ∧ 0 < wtsCE 4 ∧ 0 < wtsCE 5) ∧
    1 < getweightratio mC5 wtsCE (definerho wtsCE) 1 0 true := by
  have hrho : definerho wtsCE = 384 := by
    simp only [definerho, rhoEntries, wtsCE]
    norm_num [max_def]
  refine ⟨by decide, by decide, ?_⟩
  rw [getweightratio_up_eq, hrho]
  norm_num [mC5, wtsCE]

/-- The 2x2 lattice for the amended-C5 witness: an UP flip at `(1,0)` with
base type 5, upper-right type 1, right type 3 and up type 4 (all in the
relabelling table). -/
def mC5w : Mat := fun i j =>
  if i = 1 ∧ j = 0 then ⟨5, 0⟩
  else if i = 0 ∧ j = 1 then ⟨1, 0⟩
  else if i = 1 ∧ j = 1 then ⟨3, 0⟩
  else if i = 0 ∧ j = 0 then ⟨4, 0⟩
  else ⟨0, 0⟩

/-- Witness for the amended C5 at the concrete input `mC5w` with unit
weights. -/
theorem weightratio_bounds_amended_witness :
    0 ≤ getweightratio mC5w wOne (definerho wOne) 1 0 true ∧
    getweightratio mC5w wOne (definerho wOne) 1 0 true ≤ 1 :=
  (weightratio_bounds_amended mC5w 2 2 1 0 wOne (fun _ _ _ => one_pos)).1
    (by decide) (by decide) (by decide) (Or.inl (by decide))

/-! ### The volume sink and the height builder (claim C8) -/

lemma setHeightAt_type (m : Mat) (i j h a b : Int) :
    ((setHeightAt m i j h) a b).type = (m a b).type := by
  unfold setHeightAt
  split <;> rfl

lemma print_volume_row_eq (m : Mat) (i : Int) :
    ∀ n : ℕ, print_volume_row m i n = (cnt m i n, cntRowSum m i n) := by
  intro n
  induction n with
  | zero => rfl
  | succ k ih =>
    simp only [print_volume_row, ih, cnt, cntRowSum, hind]
    split_ifs <;> simp

lemma print_volume_rows_eq (m : Mat) (C : ℕ) :
    ∀ K : ℕ, print_volume_rows m C K = cntTotal m C K := by
  intro K
  induction K with
  | zero => rfl
  | succ k ih => simp only [print_volume_rows, cntTotal, ih, print_volume_row_eq]

lemma setheights_row_fst_type (m : Mat) (i : Int) :
    ∀ (n : ℕ) (a b : Int), ((setheights_row m i n).1 a b).type = (m a b).type := by
  intro n
  induction n with
  | zero => intro a b; rfl
  | succ k ih =>
    intro a b
    simp only [setheights_row, setHeightAt_type]
    exact ih a b

lemma setheights_row_eq (m : Mat) (i : Int) :
    ∀ n : ℕ, (setheights_row m i n).2 = (cnt m i n, cntRowSum m i n) := by
  intro n
  induction n with
  | zero => rfl
  | succ k ih =>
    simp only [setheights_row, ih, cnt, cntRowSum, hind, setheights_row_fst_type]
    split_ifs <;> simp

lemma cntRowSum_congr (m m' : Mat) (i : Int)
    (h : ∀ b : Int, 0 ≤ b → hind (m' i b).type = hind (m i b).type) :
    ∀ n : ℕ, cntRowSum m' i n = cntRowSum m i n := by
  intro n
  induction n with
  | zero => rfl
  | succ k ih => simp only [cntRowSum, ih, cnt_congr m m' i h]

lemma setheights_rows_fst_type (m : Mat) (C : ℕ) :
    ∀ (K : ℕ) (a b : Int), ((setheights_rows m C K).1 a b).type = (m a b).type := by
  intro K
  induction K with
  | zero => intro a b; rfl
  | succ k ih =>
    intro a b
    simp only [setheights_rows, setheights_row_fst_type]
    exact ih a b

lemma setheights_rows_eq (m : Mat) (C : ℕ) :
    ∀ K : ℕ, (setheights_rows m C K).2 = cntTotal m C K := by
  intro K
  induction K with
  | zero => rfl
  | succ k ih =>
    have hrow := setheights_row_eq ((setheights_rows m C k).1) (k : Int) C
    have hcong := cntRowSum_congr m ((setheights_rows m C k).1) (k : Int)
      (fun b _ => by rw [setheights_rows_fst_type]) C
    simp only [setheights_rows, cntTotal, ih, hrow, hcong]

/-- C8 (amended): the integer emitted by the volume sink equals the sum
over all cells `(i, j)` of the running count of types in 0, 2, 5 over
columns `0..j` of row `i` (equivalently, the sum of the running-count
heights) — not the plain indicator sum — and it coincides with the total
returned by `setheights` (the sum of all stored heights it writes). -/
theorem print_volume_running_count (m : Mat) (R C : ℕ) :
    print_volume_total m R C = cntTotal m C R ∧
    (setheights m R C).2 = print_volume_total m R C := by
  refine ⟨print_volume_rows_eq m C R, ?_⟩
  show (setheights_rows m C R).2 = print_volume_rows m C R
  rw [print_volume_rows_eq m C R]
  exact setheights_rows_eq m C R

/-- The all-zero 1x2 lattice refuting the original C8: every type is 0
(so in 0..5), the volume sink emits 3 but the indicator sum is 2. -/
def mC8 : Mat := fun _ _ => ⟨0, 0⟩

/-- Counterexample to C8 as stated: on the all-zero 1x2 lattice the
emitted volume (3) differs from the sum of indicators of types in
0, 2, 5 (2). -/
theorem print_volume_ne_indicator_sum_cex :
    (mC8 0 0).type = 0 ∧ (mC8 0 1).type = 0 ∧
    print_volume_total mC8 1 2 = 3 ∧ indTotal mC8 2 1 = 2 ∧
    print_volume_total mC8 1 2 ≠ indTotal mC8 2 1 := by
  decide

/-! ### Exit code on input-open failure (claim C9) -/

/-- C9 is a code bug: on an input-open failure the program prints the
error and executes `return 0`, so the process exit status is 0, not the
non-zero status the specification requires.  This theorem evaluates the
modelled open prologue at the failing inputs. -/
theorem open_failure_exit_zero :
    inputOpenExit false true = some 0 ∧ inputOpenExit true false = some 0 ∧
    inputOpenExit false false = some 0 := by
  decide

/-! ### The parser performs no validation (claim C10) -/

/-- C10: `parse` stores byte minus 48 for each of the first `R * C` bytes
read row-major, with no validation: end-of-file stores `-1 - 48 = -49`,
and any byte outside the digits 48..53 silently produces a cell type
outside 0..5. -/
theorem parse_no_validation (s : List Int) (R C : ℕ) (m : Mat) (i j : Int)
    (hi : 0 ≤ i) (hiR : i < (R : Int)) (hj : 0 ≤ j) (hjC : j < (C : Int)) :
    ((parse s R C m) i j).type = fgetcSim s (i.toNat * C + j.toNat) - 48 ∧
    (s.length ≤ i.toNat * C + j.toNat → ((parse s R C m) i j).type = -49) ∧
    ((fgetcSim s (i.toNat * C + j.toNat) < 48 ∨ 53 < fgetcSim s (i.toNat * C + j.toNat)) →
      ((parse s R C m) i j).type < 0 ∨ 5 < ((parse s R C m) i j).type) := by
  have he : ((parse s R C m) i j).type = fgetcSim s (i.toNat * C + j.toNat) - 48 := by
    unfold parse
    rw [if_pos ⟨hi, hiR, hj, hjC⟩]
  refine ⟨he, fun hlen => ?_, fun hbad => by rw [he]; omega⟩
  rw [he]
  unfold fgetcSim
  rw [dif_neg (by omega)]
  norm_num

/-- Witness for C10: parsing the single byte 99 (the letter c) into a
1x1 lattice stores type 51, silently outside 0..5. -/
theorem parse_no_validation_witness :
    ((parse [99] 1 1 mC8) 0 0).type < 0 ∨ 5 < ((parse [99] 1 1 mC8) 0 0).type :=
  (parse_no_validation [99] 1 1 mC8 0 0 (by decide) (by decide) (by decide)
    (by decide)).2.2 (by decide)

/-- Witness for C7: on `mBi` (bi-flippable at `(1,1)`) with unit weights,
rho 2 and draw 0, the bi-flip branch executes the UP flip and increments
`flipcompleted`. -/
theorem biflip_branch_selection_witness :
    biflipcase { mat := mBi, vol := 0, flipcompleted := 0, flipfailed := 0 } wOne 2 1 1 0 =
      { mat := (executeflip mBi 0 1 1 true).1, vol := (executeflip mBi 0 1 1 true).2,
        flipcompleted := 0 + 1, flipfailed := 0 } :=
  (biflip_branch_selection { mat := mBi, vol := 0, flipcompleted := 0, flipfailed := 0 }
    3 3 wOne 2 1 1 0 (by decide) (by decide)).1
    (by rw [getweightratio_up_eq]; norm_num [mBi, wOne])

end SixVertex
